import Mathlib

/-!
Shallow embedding of `airflow/orm/xcom.py` (the XCom cross-task value store):
the serialization policy (pickle vs JSON with backward-compatibility
fallback), `XCom.set` (dedup write), `XCom.get_one`, `XCom.get_many`,
`XCom.delete`, and `XCom.init_on_load`.

Modelling conventions:
 - Python values are the inductive `PyVal`; the `obj` constructor stands for
   an instance of an arbitrary class that is not JSON serializable.
 - Serialized byte strings are the inductive `Bytes`: `pickled v` is the
   output of `pickle.dumps(v)`, `jsonUtf8 v` the output of
   `json.dumps(v).encode('UTF-8')` for a JSON-serializable `v`.
 - Exceptions are values of `PyError`, returned through `Except` / `Option`.
   `UnicodeDecodeError` and `json.JSONDecodeError` are both subclasses of
   Python's `ValueError`, so both are modelled as `PyError.valueError`.
 - Timestamps and execution dates are `Nat` (UTC instants); the store carries
   a wall clock `now` that advances after each write, so sequential writes
   receive strictly increasing timestamps (`timestamp` column default
   `timezone.utcnow`).
 - The SQLAlchemy session is modelled by explicit state passing on `Store`;
   a query is a filter over `Store.recs` followed by a sort for `order_by`.
   Log output (`log.error`) is returned as a list of message strings.
-/

/-- A Python value, as far as the XCom serialization policy inspects it.
`obj cls` is an instance of a user class named `cls`: representable by
pickle, not representable in JSON. -/
inductive PyVal where
  | none
  | bool (b : Bool)
  | int (n : Int)
  | str (s : String)
  | obj (cls : String)
  | list (xs : List PyVal)
  | dict (kvs : List (String × PyVal))

mutual

/-- The class name of the first (left-to-right) non-JSON-serializable object
nested in a value, or `none` when the value is JSON serializable. Mirrors
which input makes `json.dumps` raise `TypeError` ("Object of type ... is not
JSON serializable"). -/
def PyVal.firstObjClass : PyVal → Option String
  | .none => Option.none
  | .bool _ => Option.none
  | .int _ => Option.none
  | .str _ => Option.none
  | .obj cls => some cls
  | .list xs => firstObjClassList xs
  | .dict kvs => firstObjClassKVs kvs

def firstObjClassList : List PyVal → Option String
  | [] => Option.none
  | v :: rest =>
    match v.firstObjClass with
    | some c => some c
    | Option.none => firstObjClassList rest

def firstObjClassKVs : List (String × PyVal) → Option String
  | [] => Option.none
  | (_, v) :: rest =>
    match v.firstObjClass with
    | some c => some c
    | Option.none => firstObjClassKVs rest

end

/-- A value is JSON serializable when no non-serializable object is nested
in it. -/
def PyVal.jsonSerializable (v : PyVal) : Bool :=
  v.firstObjClass.isNone

/-- Python exceptions relevant to this module. `valueError` covers
`ValueError` and its subclasses `UnicodeDecodeError`, `UnicodeEncodeError`
and `json.JSONDecodeError`; `typeError cls` is a `TypeError` whose message
names the offending kind `cls`; `unpicklingError` is
`pickle.UnpicklingError` (not a subclass of `ValueError`). -/
inductive PyError where
  | valueError
  | typeError (cls : String)
  | unpicklingError
deriving DecidableEq

/-- Whether an exception would be caught by `except ValueError`. -/
def PyError.isValueError : PyError → Bool
  | .valueError => true
  | _ => false

/-- A serialized payload at rest, abstracting the byte string. -/
inductive Bytes where
  | pickled (v : PyVal)
  | jsonUtf8 (v : PyVal)

/-- Modelled collaborator `pickle.dumps` (Python stdlib, outside this
repository): serializes any in-memory value; never fails on value shape. -/
def pickleDumps (v : PyVal) : Bytes := .pickled v

/-- Modelled collaborator `pickle.loads` (Python stdlib, outside this
repository): inverts `pickle.dumps`; on bytes that are not a pickle stream
(such as JSON text) it raises `pickle.UnpicklingError`. -/
def pickleLoads : Bytes → Except PyError PyVal
  | .pickled v => .ok v
  | .jsonUtf8 _ => .error .unpicklingError

/-- Modelled collaborator `json.dumps(v).encode('UTF-8')` (Python stdlib,
outside this repository): succeeds exactly on JSON-serializable values and
raises `TypeError` naming the offending object's type otherwise. -/
def jsonDumps (v : PyVal) : Except PyError Bytes :=
  match v.firstObjClass with
  | some c => .error (.typeError c)
  | Option.none => .ok (.jsonUtf8 v)

/-- Modelled collaborator `bytes.decode('UTF-8')` followed by `json.loads`
(Python stdlib, outside this repository): inverts `jsonDumps`; on pickle
byte streams (which are not valid UTF-8 JSON text) it raises
`UnicodeDecodeError` or `json.JSONDecodeError`, both subclasses of
`ValueError`. -/
def jsonLoads : Bytes → Except PyError PyVal
  | .jsonUtf8 v => .ok v
  | .pickled _ => .error .valueError

/-- The configuration read fresh on every operation:
`configuration.getboolean('core', 'enable_xcom_pickling')`. -/
structure Config where
  enable_xcom_pickling : Bool

/-- A value is encodable under the active policy: always when pickling is
enabled, else exactly when it is JSON serializable. -/
def encodable (cfg : Config) (v : PyVal) : Bool :=
  cfg.enable_xcom_pickling || v.jsonSerializable

/-- One row of the `xcom` table. -/
structure XComRec where
  id : Nat
  key : String
  value : Bytes
  timestamp : Nat
  execution_date : Nat
  task_id : String
  dag_id : String

/-- The persistent state: committed rows, the autoincrement counter for the
`id` primary key, and the wall clock used for the `timestamp` default. -/
structure Store where
  recs : List XComRec
  nextId : Nat
  now : Nat

/-- The error log line emitted by `XCom.set` when serialization to JSON
fails with a `ValueError`. -/
def serializeErrorLog : String :=
  "Could not serialize the XCOM value into JSON. If you are using pickles instead of JSON for XCOM, then you need to enable pickle support for XCOM in your airflow config."

/-- The error log line emitted by `XCom.get_one` when deserialization from
JSON fails with a `ValueError`. -/
def deserializeErrorLog : String :=
  "Could not deserialize the XCOM value from JSON. If you are using pickles instead of JSON for XCOM, then you need to enable pickle support for XCOM in your airflow config."

/-- The predicate of the dedup delete in `XCom.set`: rows matching all of
`key`, `execution_date`, `task_id`, `dag_id` exactly. -/
def natMatch (key : String) (execution_date : Nat) (task_id dag_id : String)
    (r : XComRec) : Bool :=
  r.key == key && r.execution_date == execution_date &&
    r.task_id == task_id && r.dag_id == dag_id

/-- Outcome of a `XCom.set` call: the committed store, the exception that
propagated (if any), and the error log lines emitted. -/
structure SetResult where
  store : Store
  error : Option PyError
  logs : List String

/-- The serialization step of `XCom.set`: `pickle.dumps` when pickling is
enabled, else `json.dumps(...).encode('UTF-8')` inside
`try ... except ValueError` which logs `serializeErrorLog` and re-raises.
A `TypeError` from `json.dumps` is not caught by that handler, so it
propagates without any log line. -/
def setEncode (cfg : Config) (value : PyVal) :
    Except PyError Bytes × List String :=
  if cfg.enable_xcom_pickling then (.ok (pickleDumps value), [])
  else
    match jsonDumps value with
    | .ok b => (.ok b, [])
    | .error e =>
      if e.isValueError then (.error e, [serializeErrorLog])
      else (.error e, [])

/-- `XCom.set`: encode the value, then delete every row matching the natural
key exactly and commit, then insert the new row (fresh `id`, `timestamp` =
current time) and commit. `session.expunge_all()` only detaches in-memory
objects and has no persistent effect, so it is not modelled. When the encode
step raises, the exception propagates before any query is issued, leaving
the store unchanged. -/
def XCom.set (cfg : Config) (key : String) (value : PyVal)
    (execution_date : Nat) (task_id dag_id : String) (s : Store) : SetResult :=
  match setEncode cfg value with
  | (.error e, logs) => ⟨s, some e, logs⟩
  | (.ok b, logs) =>
    let afterDelete : Store :=
      { s with recs :=
          s.recs.filter (fun r => !natMatch key execution_date task_id dag_id r) }
    let newRec : XComRec :=
      { id := afterDelete.nextId, key := key, value := b,
        timestamp := afterDelete.now, execution_date := execution_date,
        task_id := task_id, dag_id := dag_id }
    ⟨{ recs := afterDelete.recs ++ [newRec], nextId := afterDelete.nextId + 1,
       now := afterDelete.now + 1 }, Option.none, logs⟩

/-- The `order_by` relation of `get_one`/`get_many`:
`execution_date` descending, then `timestamp` descending. `ordRel a b` holds
when `a` may come before `b` in the query result. -/
def ordRel (a b : XComRec) : Prop :=
  b.execution_date < a.execution_date ∨
    (a.execution_date = b.execution_date ∧ b.timestamp ≤ a.timestamp)

instance : DecidableRel ordRel := fun a b => by unfold ordRel; exact inferInstance

instance : IsTotal XComRec ordRel := ⟨by intro a b; unfold ordRel; omega⟩

instance : IsTrans XComRec ordRel := ⟨by intro a b c; unfold ordRel; omega⟩

/-- Python truthiness of an optional string argument: `None` and the empty
string are falsy. -/
def pyTruthyStr : Option String → Bool
  | Option.none => false
  | some s => !s.isEmpty

/-- Python truthiness of an optional collection argument: `None` and an
empty collection are falsy. -/
def pyTruthyList : Option (List String) → Bool
  | Option.none => false
  | some l => !l.isEmpty

/-- One conditional equality filter: `if key: filters.append(cls.key == key)`.
When the argument is falsy, no filter is appended and every row passes. -/
def applyOptEq (filt : Option String) (field : String) : Bool :=
  if pyTruthyStr filt then field == filt.getD "" else true

/-- Modelled from the spec: `airflow.utils.helpers.as_tuple` (repository code
not under `src/`) — "task_ids/dag_ids each accept a single identifier or a
collection of identifiers"; on a collection it returns the same elements as
a tuple. The model passes collections only, where it is the identity. -/
def asTuple (l : List String) : List String := l

/-- One conditional membership filter:
`if task_ids: filters.append(cls.task_id.in_(as_tuple(task_ids)))`. -/
def applyOptMem (filt : Option (List String)) (field : String) : Bool :=
  if pyTruthyList filt then (asTuple (filt.getD [])).contains field else true

/-- The execution-date filter: `<=` when `include_prior_dates` is set,
exact equality otherwise. -/
def dateFilter (include_prior_dates : Bool) (execution_date : Nat)
    (r : XComRec) : Bool :=
  if include_prior_dates then decide (r.execution_date ≤ execution_date)
  else r.execution_date == execution_date

/-- The conjunction `and_(*filters)` built by `XCom.get_one`. -/
def getOneMatch (key task_id dag_id : Option String) (execution_date : Nat)
    (include_prior_dates : Bool) (r : XComRec) : Bool :=
  applyOptEq key r.key && applyOptEq task_id r.task_id &&
    applyOptEq dag_id r.dag_id &&
    dateFilter include_prior_dates execution_date r

/-- The candidate rows of a `get_one` query, in query-result order:
`filter(and_(*filters)).order_by(execution_date.desc(), timestamp.desc())`. -/
def getOneCandidates (key task_id dag_id : Option String)
    (execution_date : Nat) (include_prior_dates : Bool) (s : Store) :
    List XComRec :=
  List.insertionSort ordRel
    (s.recs.filter (getOneMatch key task_id dag_id execution_date include_prior_dates))

/-- The deserialization step of `XCom.get_one`: `pickle.loads` when pickling
is enabled, else UTF-8 decode + `json.loads` inside
`try ... except ValueError` which logs `deserializeErrorLog` and RE-RAISES.
Unlike `XCom.init_on_load`, this path has no fallback to `pickle.loads`. -/
def getOneDecode (cfg : Config) (b : Bytes) :
    Except PyError PyVal × List String :=
  if cfg.enable_xcom_pickling then (pickleLoads b, [])
  else
    match jsonLoads b with
    | .ok v => (.ok v, [])
    | .error e =>
      if e.isValueError then (.error e, [deserializeErrorLog])
      else (.error e, [])

/-- Decoding of the first row of the query result, `query.first()`:
`None` (no match) yields the absent value, which is not an error. -/
def decodeFirst (cfg : Config) (first : Option XComRec) :
    Except PyError (Option PyVal) × List String :=
  match first with
  | Option.none => (.ok Option.none, [])
  | some r =>
    match getOneDecode cfg r.value with
    | (.ok v, logs) => (.ok (some v), logs)
    | (.error e, logs) => (.error e, logs)

/-- `XCom.get_one`: conjunctive optional filters, execution-date filter,
descending `(execution_date, timestamp)` order, first row decoded. The query
selects only the `value` column, so `init_on_load` does not run here; the
decode is the explicit one in `get_one`'s body. -/
def XCom.get_one (cfg : Config) (execution_date : Nat)
    (key task_id dag_id : Option String) (include_prior_dates : Bool)
    (s : Store) : Except PyError (Option PyVal) × List String :=
  decodeFirst cfg
    (getOneCandidates key task_id dag_id execution_date include_prior_dates s).head?

/-- The conjunction `and_(*filters)` built by `XCom.get_many`. -/
def getManyMatch (key : Option String) (task_ids dag_ids : Option (List String))
    (execution_date : Nat) (include_prior_dates : Bool) (r : XComRec) : Bool :=
  applyOptEq key r.key && applyOptMem task_ids r.task_id &&
    applyOptMem dag_ids r.dag_id &&
    dateFilter include_prior_dates execution_date r

/-- The candidate rows of a `get_many` query, in query-result order, before
the `LIMIT` is applied. -/
def getManyCandidates (key : Option String)
    (task_ids dag_ids : Option (List String)) (execution_date : Nat)
    (include_prior_dates : Bool) (s : Store) : List XComRec :=
  List.insertionSort ordRel
    (s.recs.filter (getManyMatch key task_ids dag_ids execution_date include_prior_dates))

/-- `XCom.get_many`: like `get_one`'s filtering and ordering but with
membership filters for task/dag ids, returning the raw rows truncated by
`.limit(limit)`. The limit is modelled as a natural number; `LIMIT 0`
returns no rows. -/
def XCom.get_many (execution_date : Nat) (key : Option String)
    (task_ids dag_ids : Option (List String)) (include_prior_dates : Bool)
    (limit : Nat) (s : Store) : List XComRec :=
  (getManyCandidates key task_ids dag_ids execution_date include_prior_dates s).take limit

/-- `XCom.init_on_load`, the ORM `@reconstructor` run when a full row is
materialized: `pickle.loads` when pickling is enabled; else UTF-8 decode +
`json.loads`, and on `UnicodeEncodeError`/`ValueError` (which covers
`UnicodeDecodeError` and `json.JSONDecodeError`) FALL BACK to
`pickle.loads` for backward compatibility with rows written under the
pickle policy. -/
def XCom.init_on_load (cfg : Config) (value : Bytes) : Except PyError PyVal :=
  if cfg.enable_xcom_pickling then pickleLoads value
  else
    match jsonLoads value with
    | .ok v => .ok v
    | .error e => if e.isValueError then pickleLoads value else .error e

/-- An element of the argument to `XCom.delete`: an XCom row or a value of
some other class (whose `__class__.__name__` is recorded). -/
inductive XComArg where
  | record (r : XComRec)
  | nonRecord (cls : String)

/-- Whether an element would pass `isinstance(xcom, XCom)`. -/
def XComArg.isRecord : XComArg → Bool
  | .record _ => true
  | .nonRecord _ => false

/-- The loop of `XCom.delete`: validate each element and stage its deletion
(`session.delete`); on the first non-XCom element raise
`TypeError('Expected XCom; received ...')` naming the element's class. -/
def deleteStage : List XComArg → List Nat → Except PyError (List Nat)
  | [], staged => .ok staged
  | .record r :: rest, staged => deleteStage rest (staged ++ [r.id])
  | .nonRecord cls :: _, _ => .error (.typeError cls)

/-- `XCom.delete`: stage the deletion of each given row, committing once
after the loop. When the loop raises, the commit is never reached and the
staged (uncommitted) deletions are discarded, so the store is unchanged. -/
def XCom.delete (xcoms : List XComArg) (s : Store) : Store × Option PyError :=
  match deleteStage xcoms [] with
  | .error e => (s, some e)
  | .ok staged =>
    ({ s with recs := s.recs.filter (fun r => !staged.contains r.id) },
      Option.none)

/-- The bytes produced by a successful encode under the active policy. -/
def encBytes (cfg : Config) (v : PyVal) : Bytes :=
  if cfg.enable_xcom_pickling then .pickled v else .jsonUtf8 v

/-- Sequential `XCom.set` calls for one natural key, threading the store. -/
def writeSeq (cfg : Config) (key : String) (execution_date : Nat)
    (task_id dag_id : String) (vs : List PyVal) (s : Store) : Store :=
  vs.foldl (fun st v => (XCom.set cfg key v execution_date task_id dag_id st).store) s

/-- Configuration with pickling disabled (JSON policy active). -/
def cfgJson : Config := ⟨false⟩

/-- Configuration with pickling enabled (legacy policy active). -/
def cfgPickle : Config := ⟨true⟩

/-- Modelled collaborator: the SQL LIMIT clause as executed by SQLite, the
default backing store of this repository. `get_many` passes the caller's
`limit` to `.limit(limit)` unvalidated; SQLite treats a negative LIMIT as
"no limit" and returns every row (other backends reject a negative limit
outright). A nonnegative limit keeps the first `limit` rows. -/
def sqliteLimit (limit : Int) (l : List XComRec) : List XComRec :=
  if limit < 0 then l else l.take limit.toNat

/-- `XCom.get_many` with the limit over the source's full signed-integer
range, applied through the SQLite LIMIT semantics; on nonnegative limits it
agrees with `XCom.get_many`. -/
def XCom.get_many_sqlite (execution_date : Nat) (key : Option String)
    (task_ids dag_ids : Option (List String)) (include_prior_dates : Bool)
    (limit : Int) (s : Store) : List XComRec :=
  sqliteLimit limit
    (getManyCandidates key task_ids dag_ids execution_date include_prior_dates s)

theorem setEncode_ok (cfg : Config) (v : PyVal) (h : encodable cfg v = true) :
    setEncode cfg v = (.ok (encBytes cfg v), []) := by
  unfold setEncode encBytes
  cases hp : cfg.enable_xcom_pickling with
  | true => simp [pickleDumps]
  | false =>
    have hs : v.jsonSerializable = true := by
      simpa [encodable, hp] using h
    have hfc : v.firstObjClass = Option.none := by
      simpa [PyVal.jsonSerializable, Option.isNone_iff_eq_none] using hs
    simp [jsonDumps, hfc]

theorem getOneDecode_encBytes (cfg : Config) (v : PyVal) :
    getOneDecode cfg (encBytes cfg v) = (.ok v, []) := by
  unfold getOneDecode encBytes
  cases hp : cfg.enable_xcom_pickling <;> simp [pickleLoads, jsonLoads]

/-- Claim C6: for every value encodable under the active serialization
policy, decoding the bytes produced by encoding it under that same policy
(whether by the load-time decoder or by `get_one`'s decoder) yields the
value back, for both the legacy (pickle) and the JSON policy. -/
theorem xcom_round_trip (cfg : Config) (v : PyVal) (h : encodable cfg v = true) :
    (setEncode cfg v).1 = .ok (encBytes cfg v) ∧
    XCom.init_on_load cfg (encBytes cfg v) = .ok v ∧
    (getOneDecode cfg (encBytes cfg v)).1 = .ok v := by
  refine ⟨by rw [setEncode_ok cfg v h], ?_, by rw [getOneDecode_encBytes]⟩
  unfold XCom.init_on_load encBytes
  cases hp : cfg.enable_xcom_pickling <;> simp [pickleLoads, jsonLoads]

/-- Witness for C6 at a concrete dictionary value under the JSON policy. -/
theorem xcom_round_trip_witness :
    encodable cfgJson (.dict [("x", .int 1)]) = true ∧
    ((setEncode cfgJson (.dict [("x", .int 1)])).1 =
        .ok (encBytes cfgJson (.dict [("x", .int 1)])) ∧
      XCom.init_on_load cfgJson (encBytes cfgJson (.dict [("x", .int 1)])) =
        .ok (.dict [("x", .int 1)]) ∧
      (getOneDecode cfgJson (encBytes cfgJson (.dict [("x", .int 1)]))).1 =
        .ok (.dict [("x", .int 1)])) :=
  ⟨by decide, xcom_round_trip cfgJson (.dict [("x", .int 1)]) (by decide)⟩

/-- Claim C7: when the encode step of `XCom.set` fails, the error propagates
and the store is left completely unchanged — no row deleted, no row
inserted (encoding happens before any query). -/
theorem xcom_encode_failure_no_mutation (cfg : Config) (key : String)
    (v : PyVal) (ed : Nat) (tid did : String) (s : Store)
    (h : encodable cfg v = false) :
    (XCom.set cfg key v ed tid did s).store = s ∧
    (XCom.set cfg key v ed tid did s).error.isSome = true := by
  have hp : cfg.enable_xcom_pickling = false := by
    cases hp : cfg.enable_xcom_pickling
    · rfl
    · simp [encodable, hp] at h
  have hs : v.jsonSerializable = false := by
    simpa [encodable, hp] using h
  obtain ⟨c, hc⟩ : ∃ c, v.firstObjClass = some c := by
    cases hfc : v.firstObjClass with
    | none => simp [PyVal.jsonSerializable, hfc] at hs
    | some c => exact ⟨c, rfl⟩
  unfold XCom.set setEncode jsonDumps
  simp [hp, hc, PyError.isValueError]

/-- Witness for C7: a non-JSON-serializable object under the JSON policy. -/
theorem xcom_encode_failure_no_mutation_witness :
    encodable cfgJson (.obj "X") = false ∧
    ((XCom.set cfgJson "k" (.obj "X") 7 "t" "d" ⟨[], 0, 0⟩).store = ⟨[], 0, 0⟩ ∧
      (XCom.set cfgJson "k" (.obj "X") 7 "t" "d" ⟨[], 0, 0⟩).error.isSome = true) :=
  ⟨by decide, xcom_encode_failure_no_mutation cfgJson "k" (.obj "X") 7 "t" "d" ⟨[], 0, 0⟩ (by decide)⟩

/-- Claim C3: evaluating `XCom.set` at a non-JSON-serializable value with
pickling disabled. `json.dumps` raises `TypeError`, which the
`except ValueError` handler does not catch: the error propagates to the
caller (the failure is not swallowed and no mutation happens), but — against
the claim — NO error log line is emitted, because the logging branch is
reachable only for `ValueError`. -/
theorem xcom_encode_typeerror_unlogged (s : Store) :
    (XCom.set cfgJson "k" (.obj "Foo") 7 "t" "d" s).error =
      some (.typeError "Foo") ∧
    (XCom.set cfgJson "k" (.obj "Foo") 7 "t" "d" s).logs = [] ∧
    (XCom.set cfgJson "k" (.obj "Foo") 7 "t" "d" s).store = s :=
  ⟨rfl, rfl, rfl⟩

theorem set_store_ok (cfg : Config) (key : String) (v : PyVal) (ed : Nat)
    (tid did : String) (s : Store) (h : encodable cfg v = true) :
    (XCom.set cfg key v ed tid did s).store =
      ⟨s.recs.filter (fun r => !natMatch key ed tid did r) ++
          [⟨s.nextId, key, encBytes cfg v, s.now, ed, tid, did⟩],
        s.nextId + 1, s.now + 1⟩ := by
  unfold XCom.set
  rw [setEncode_ok cfg v h]

theorem filter_not_append_singleton (p : XComRec → Bool) (l : List XComRec)
    (x : XComRec) (hx : p x = true) :
    ((l.filter (fun r => !p r)) ++ [x]).filter p = [x] := by
  rw [List.filter_append]
  have hnil : (l.filter (fun r => !p r)).filter p = [] := by
    rw [List.filter_eq_nil_iff]
    intro a ha
    have := (List.mem_filter.1 ha).2
    simp at this
    simp [this]
  rw [hnil]
  simp [hx]

theorem getOneMatch_exact (key tid did : String) (ed : Nat)
    (hk : key.isEmpty = false) (ht : tid.isEmpty = false)
    (hd : did.isEmpty = false) (r : XComRec) :
    getOneMatch (some key) (some tid) (some did) ed false r =
      natMatch key ed tid did r := by
  unfold getOneMatch natMatch applyOptEq dateFilter pyTruthyStr
  simp [hk, ht, hd]
  cases r.key == key <;> cases r.execution_date == ed <;>
    cases r.task_id == tid <;> cases r.dag_id == did <;> simp

/-- Claim C1: after any number of sequential `XCom.set` calls for one
natural key (dag_id, task_id, execution_date, key), the last of which
succeeds, exactly one live row with that natural key exists, and
`XCom.get_one` with the exact execution-date filter on that natural key
returns the value supplied to the most recent write. -/
theorem xcom_dedup_on_write (cfg : Config) (key tid did : String) (ed : Nat)
    (vs : List PyVal) (v : PyVal) (s : Store)
    (hk : key.isEmpty = false) (ht : tid.isEmpty = false)
    (hd : did.isEmpty = false) (henc : encodable cfg v = true) :
    ((writeSeq cfg key ed tid did (vs ++ [v]) s).recs.filter
        (natMatch key ed tid did)).length = 1 ∧
    (XCom.get_one cfg ed (some key) (some tid) (some did) false
        (writeSeq cfg key ed tid did (vs ++ [v]) s)).1 = .ok (some v) := by
  set st := writeSeq cfg key ed tid did vs s with hst
  have hw : writeSeq cfg key ed tid did (vs ++ [v]) s =
      (XCom.set cfg key v ed tid did st).store := by
    unfold writeSeq
    rw [List.foldl_append]
    rfl
  rw [hw, set_store_ok cfg key v ed tid did st henc]
  have hnm : natMatch key ed tid did ⟨st.nextId, key, encBytes cfg v, st.now, ed, tid, did⟩ = true := by
    simp [natMatch]
  have hfil : ((st.recs.filter (fun r => !natMatch key ed tid did r)) ++
        [(⟨st.nextId, key, encBytes cfg v, st.now, ed, tid, did⟩ : XComRec)]).filter
      (natMatch key ed tid did) =
      [(⟨st.nextId, key, encBytes cfg v, st.now, ed, tid, did⟩ : XComRec)] :=
    filter_not_append_singleton _ _ _ hnm
  constructor
  · show (List.filter _ _).length = 1
    rw [hfil]
    rfl
  · unfold XCom.get_one getOneCandidates
    have hfun : getOneMatch (some key) (some tid) (some did) ed false =
        natMatch key ed tid did := by
      funext r
      exact getOneMatch_exact key tid did ed hk ht hd r
    rw [hfun]
    show (decodeFirst cfg (List.insertionSort ordRel (List.filter _ _)).head?).1 = _
    rw [hfil]
    simp [decodeFirst, getOneDecode_encBytes]

/-- Witness for C1: two writes to the same natural key under the JSON
policy; the value of the second write is read back. -/
theorem xcom_dedup_on_write_witness :
    ("k" : String).isEmpty = false ∧ ("t" : String).isEmpty = false ∧
    ("d" : String).isEmpty = false ∧ encodable cfgJson (.int 2) = true ∧
    (((writeSeq cfgJson "k" 7 "t" "d" ([.int 1] ++ [.int 2]) ⟨[], 0, 0⟩).recs.filter
        (natMatch "k" 7 "t" "d")).length = 1 ∧
      (XCom.get_one cfgJson 7 (some "k") (some "t") (some "d") false
          (writeSeq cfgJson "k" 7 "t" "d" ([.int 1] ++ [.int 2]) ⟨[], 0, 0⟩)).1 =
        .ok (some (.int 2))) :=
  ⟨by decide, by decide, by decide, by decide,
    xcom_dedup_on_write cfgJson "k" "t" "d" 7 [.int 1] (.int 2) ⟨[], 0, 0⟩
      (by decide) (by decide) (by decide) (by decide)⟩

/-- Claim C4: in `get_one` and `get_many` the candidate rows are ordered by
`execution_date` descending then `timestamp` descending (also after the
limit is applied in `get_many`); `get_one` decodes exactly the first row of
that order; and rows with equal `execution_date` but different `timestamp`
are ordered strictly by `timestamp` descending. -/
theorem xcom_ordering (cfg : Config) (ed : Nat) (key tid did : Option String)
    (tids dids : Option (List String)) (ipd : Bool) (limit : Nat) (s : Store) :
    List.Pairwise ordRel (getOneCandidates key tid did ed ipd s) ∧
    List.Pairwise ordRel (getManyCandidates key tids dids ed ipd s) ∧
    List.Pairwise ordRel (XCom.get_many ed key tids dids ipd limit s) ∧
    XCom.get_one cfg ed key tid did ipd s =
      decodeFirst cfg (getOneCandidates key tid did ed ipd s).head? ∧
    List.Pairwise
      (fun a b => a.execution_date = b.execution_date →
        a.timestamp ≠ b.timestamp → b.timestamp < a.timestamp)
      (getOneCandidates key tid did ed ipd s) ∧
    List.Pairwise
      (fun a b => a.execution_date = b.execution_date →
        a.timestamp ≠ b.timestamp → b.timestamp < a.timestamp)
      (getManyCandidates key tids dids ed ipd s) := by
  have h1 : List.Pairwise ordRel (getOneCandidates key tid did ed ipd s) :=
    List.sorted_insertionSort ordRel _
  have h2 : List.Pairwise ordRel (getManyCandidates key tids dids ed ipd s) :=
    List.sorted_insertionSort ordRel _
  have hstrict : ∀ a b : XComRec, ordRel a b →
      (a.execution_date = b.execution_date → a.timestamp ≠ b.timestamp →
        b.timestamp < a.timestamp) := by
    intro a b hab
    unfold ordRel at hab
    omega
  refine ⟨h1, h2, ?_, rfl, h1.imp (hstrict _ _), h2.imp (hstrict _ _)⟩
  exact h2.sublist (List.take_sublist limit _)

theorem applyOptEq_iff (filt : Option String) (field : String) :
    applyOptEq filt field = true ↔
      (pyTruthyStr filt = true → field = filt.getD "") := by
  unfold applyOptEq
  cases h : pyTruthyStr filt <;> simp

theorem applyOptMem_iff (filt : Option (List String)) (field : String) :
    applyOptMem filt field = true ↔
      (pyTruthyList filt = true → field ∈ filt.getD []) := by
  unfold applyOptMem asTuple
  cases h : pyTruthyList filt <;> simp

theorem dateFilter_iff (ipd : Bool) (ed : Nat) (r : XComRec) :
    dateFilter ipd ed r = true ↔
      (if ipd then r.execution_date ≤ ed else r.execution_date = ed) := by
  unfold dateFilter
  cases ipd <;> simp

/-- Claim C5: a row is a candidate of `get_one`/`get_many` exactly when it
is in the store and satisfies every provided filter: equality (membership
for `get_many`'s id collections) for each truthy optional filter, no
constraint for omitted ones, and `execution_date` equal to the argument
when `include_prior_dates` is false, less-or-equal when it is true. -/
theorem xcom_filter_semantics (key tid did : Option String)
    (tids dids : Option (List String)) (ed : Nat) (ipd : Bool) (s : Store)
    (r : XComRec) :
    (r ∈ getOneCandidates key tid did ed ipd s ↔
      r ∈ s.recs ∧ (pyTruthyStr key = true → r.key = key.getD "") ∧
        (pyTruthyStr tid = true → r.task_id = tid.getD "") ∧
        (pyTruthyStr did = true → r.dag_id = did.getD "") ∧
        (if ipd then r.execution_date ≤ ed else r.execution_date = ed)) ∧
    (r ∈ getManyCandidates key tids dids ed ipd s ↔
      r ∈ s.recs ∧ (pyTruthyStr key = true → r.key = key.getD "") ∧
        (pyTruthyList tids = true → r.task_id ∈ tids.getD []) ∧
        (pyTruthyList dids = true → r.dag_id ∈ dids.getD []) ∧
        (if ipd then r.execution_date ≤ ed else r.execution_date = ed)) := by
  constructor
  · unfold getOneCandidates
    rw [(List.perm_insertionSort ordRel _).mem_iff, List.mem_filter]
    unfold getOneMatch
    simp only [Bool.and_eq_true, applyOptEq_iff, dateFilter_iff, and_assoc]
  · unfold getManyCandidates
    rw [(List.perm_insertionSort ordRel _).mem_iff, List.mem_filter]
    unfold getManyMatch
    simp only [Bool.and_eq_true, applyOptEq_iff, applyOptMem_iff,
      dateFilter_iff, and_assoc]

/-- Claim C9 counterexample: with one matching row in the store, the
negative limit `-1` — a non-positive limit, which the source passes
unvalidated to SQL LIMIT — returns that row under the SQLite semantics
(negative LIMIT means no limit), not the empty result the claim asserts. -/
theorem xcom_limit_cex :
    XCom.get_many_sqlite 7 Option.none Option.none Option.none false (-1)
        ⟨[⟨0, "k", .jsonUtf8 (.int 1), 0, 7, "t", "d"⟩], 1, 1⟩ =
      [⟨0, "k", .jsonUtf8 (.int 1), 0, 7, "t", "d"⟩] ∧
    XCom.get_many_sqlite 7 Option.none Option.none Option.none false (-1)
        ⟨[⟨0, "k", .jsonUtf8 (.int 1), 0, 7, "t", "d"⟩], 1, 1⟩ ≠ [] := by
  have h1 : XCom.get_many_sqlite 7 Option.none Option.none Option.none false (-1)
      ⟨[⟨0, "k", .jsonUtf8 (.int 1), 0, 7, "t", "d"⟩], 1, 1⟩ =
      [⟨0, "k", .jsonUtf8 (.int 1), 0, 7, "t", "d"⟩] := rfl
  refine ⟨h1, ?_⟩
  rw [h1]
  simp

/-- Claim C9 as amended: `get_many` returns exactly the first `limit` rows
of the descending-ordered candidates for every nonnegative `limit` (where
it agrees with `XCom.get_many`; so `min limit candidates` rows, every
returned row ordered no later than every row it cuts off), the limit `0`
yields the empty result, and a negative limit — passed unvalidated to SQL
LIMIT — returns ALL matching rows under the SQLite backend. -/
theorem xcom_limit_amended (ed : Nat) (key : Option String)
    (tids dids : Option (List String)) (ipd : Bool) (s : Store) :
    (∀ n : Nat, XCom.get_many_sqlite ed key tids dids ipd (n : Int) s =
        (getManyCandidates key tids dids ed ipd s).take n) ∧
    (∀ n : Nat, XCom.get_many_sqlite ed key tids dids ipd (n : Int) s =
        XCom.get_many ed key tids dids ipd n s) ∧
    (∀ n : Nat, (XCom.get_many_sqlite ed key tids dids ipd (n : Int) s).length =
        min n (getManyCandidates key tids dids ed ipd s).length) ∧
    XCom.get_many_sqlite ed key tids dids ipd 0 s = [] ∧
    (∀ n : Nat, XCom.get_many_sqlite ed key tids dids ipd (-((n : Int) + 1)) s =
        getManyCandidates key tids dids ed ipd s) ∧
    (∀ n : Nat, ∀ a ∈ XCom.get_many_sqlite ed key tids dids ipd (n : Int) s,
      ∀ b ∈ (getManyCandidates key tids dids ed ipd s).drop n, ordRel a b) := by
  have hnn : ∀ n : Nat, XCom.get_many_sqlite ed key tids dids ipd (n : Int) s =
      (getManyCandidates key tids dids ed ipd s).take n := by
    intro n
    unfold XCom.get_many_sqlite sqliteLimit
    have h0 : ¬ ((n : Int) < 0) := by omega
    simp [h0]
  refine ⟨hnn, ?_, ?_, rfl, ?_, ?_⟩
  · intro n
    exact (hnn n).trans rfl
  · intro n
    rw [hnn n]
    exact List.length_take n _
  · intro n
    unfold XCom.get_many_sqlite sqliteLimit
    have hneg : (-((n : Int) + 1)) < 0 := by omega
    rw [if_pos hneg]
  · intro n a ha b hb
    have hp : List.Pairwise ordRel (getManyCandidates key tids dids ed ipd s) :=
      List.sorted_insertionSort ordRel _
    rw [← List.take_append_drop n (getManyCandidates key tids dids ed ipd s),
      List.pairwise_append] at hp
    exact hp.2.2 a (by rwa [hnn n] at ha) b hb

/-- Claim C10: supplying an optional filter as a falsy value — the empty
string for `key`/`task_id`/`dag_id`, the empty collection for
`task_ids`/`dag_ids` — behaves exactly like omitting the filter. -/
theorem xcom_falsy_filters (cfg : Config) (ed : Nat) (k t d : Option String)
    (tids dids : Option (List String)) (ipd : Bool) (limit : Nat) (s : Store) :
    (XCom.get_one cfg ed (some "") t d ipd s =
      XCom.get_one cfg ed Option.none t d ipd s) ∧
    (XCom.get_one cfg ed k (some "") d ipd s =
      XCom.get_one cfg ed k Option.none d ipd s) ∧
    (XCom.get_one cfg ed k t (some "") ipd s =
      XCom.get_one cfg ed k t Option.none ipd s) ∧
    (XCom.get_many ed (some "") tids dids ipd limit s =
      XCom.get_many ed Option.none tids dids ipd limit s) ∧
    (XCom.get_many ed k (some []) dids ipd limit s =
      XCom.get_many ed k Option.none dids ipd limit s) ∧
    (XCom.get_many ed k tids (some []) ipd limit s =
      XCom.get_many ed k tids Option.none ipd limit s) :=
  ⟨rfl, rfl, rfl, rfl, rfl, rfl⟩

/-- Claim C2 counterexample: a value written under the legacy (pickle)
policy and then read through `XCom.get_one` after switching to the JSON
policy is NOT returned: `get_one`'s decode has no legacy fallback, so the
`ValueError` from the failed UTF-8/JSON parse is re-raised. -/
theorem xcom_legacy_fallback_cex :
    (XCom.get_one cfgJson 7 (some "k") (some "t") (some "d") false
        (XCom.set cfgPickle "k" (.int 5) 7 "t" "d" ⟨[], 0, 0⟩).store).1 =
      .error .valueError ∧
    (XCom.get_one cfgJson 7 (some "k") (some "t") (some "d") false
        (XCom.set cfgPickle "k" (.int 5) 7 "t" "d" ⟨[], 0, 0⟩).store).1 ≠
      .ok (some (.int 5)) := by
  have h1 : (XCom.get_one cfgJson 7 (some "k") (some "t") (some "d") false
      (XCom.set cfgPickle "k" (.int 5) 7 "t" "d" ⟨[], 0, 0⟩).store).1 =
      .error .valueError := rfl
  refine ⟨h1, ?_⟩
  rw [h1]
  simp

/-- Claim C2 as amended: a record encoded under legacy mode remains
decodable after the switch to the JSON policy only through the load-time
decoder `init_on_load` (run when full rows are materialized, e.g. by
`get_many`), which falls back to `pickle.loads` on the failed UTF-8/JSON
parse; `get_one`'s explicit decode does not fall back — it logs the
deserialization guidance and re-raises the `ValueError`. -/
theorem xcom_legacy_fallback_amended (cfg : Config)
    (h : cfg.enable_xcom_pickling = false) (v : PyVal) :
    XCom.init_on_load cfg (.pickled v) = .ok v ∧
    (getOneDecode cfg (.pickled v)).1 = .error .valueError ∧
    (getOneDecode cfg (.pickled v)).2 = [deserializeErrorLog] := by
  unfold XCom.init_on_load getOneDecode
  simp [h, jsonLoads, pickleLoads, PyError.isValueError]

/-- Witness for the amended C2 at the JSON configuration and a concrete
pickled value. -/
theorem xcom_legacy_fallback_amended_witness :
    cfgJson.enable_xcom_pickling = false ∧
    (XCom.init_on_load cfgJson (.pickled (.int 5)) = .ok (.int 5) ∧
      (getOneDecode cfgJson (.pickled (.int 5))).1 = .error .valueError ∧
      (getOneDecode cfgJson (.pickled (.int 5))).2 = [deserializeErrorLog]) :=
  ⟨rfl, xcom_legacy_fallback_amended cfgJson rfl (.int 5)⟩

theorem deleteStage_error (xcoms : List XComArg) (staged : List Nat)
    (h : xcoms.all XComArg.isRecord = false) :
    ∃ c, deleteStage xcoms staged = .error (.typeError c) ∧
      XComArg.nonRecord c ∈ xcoms := by
  induction xcoms generalizing staged with
  | nil => simp at h
  | cons x rest ih =>
    cases x with
    | record r =>
      simp only [List.all_cons, XComArg.isRecord, Bool.true_and] at h
      obtain ⟨c, hc, hm⟩ := ih (staged ++ [r.id]) h
      exact ⟨c, by simpa [deleteStage] using hc, by simp [hm]⟩
    | nonRecord cls => exact ⟨cls, rfl, by simp⟩

/-- Claim C8: when any element passed to `XCom.delete` is not an XCom row,
the call raises a `TypeError` naming the kind of an offending element and
performs no deletions: the commit is never reached, so every pre-existing
row (including the ones whose deletion was already staged) remains. -/
theorem xcom_delete_validation (xcoms : List XComArg) (s : Store)
    (h : xcoms.all XComArg.isRecord = false) :
    (XCom.delete xcoms s).1 = s ∧
    ∃ c, (XCom.delete xcoms s).2 = some (.typeError c) ∧
      XComArg.nonRecord c ∈ xcoms := by
  obtain ⟨c, hc, hm⟩ := deleteStage_error xcoms [] h
  unfold XCom.delete
  rw [hc]
  exact ⟨rfl, c, rfl, hm⟩

/-- Witness for C8: a batch holding one genuine row and one string, against
a store with two rows. -/
theorem xcom_delete_validation_witness :
    ([XComArg.record ⟨0, "k", .jsonUtf8 (.int 1), 0, 7, "t", "d"⟩,
        XComArg.nonRecord "str"].all XComArg.isRecord = false) ∧
    ((XCom.delete
        [XComArg.record ⟨0, "k", .jsonUtf8 (.int 1), 0, 7, "t", "d"⟩,
          XComArg.nonRecord "str"]
        ⟨[⟨0, "k", .jsonUtf8 (.int 1), 0, 7, "t", "d"⟩,
          ⟨1, "k2", .jsonUtf8 (.int 2), 1, 7, "t", "d"⟩], 2, 2⟩).1 =
      ⟨[⟨0, "k", .jsonUtf8 (.int 1), 0, 7, "t", "d"⟩,
          ⟨1, "k2", .jsonUtf8 (.int 2), 1, 7, "t", "d"⟩], 2, 2⟩ ∧
      ∃ c, (XCom.delete
          [XComArg.record ⟨0, "k", .jsonUtf8 (.int 1), 0, 7, "t", "d"⟩,
            XComArg.nonRecord "str"]
          ⟨[⟨0, "k", .jsonUtf8 (.int 1), 0, 7, "t", "d"⟩,
            ⟨1, "k2", .jsonUtf8 (.int 2), 1, 7, "t", "d"⟩], 2, 2⟩).2 =
        some (.typeError c) ∧
        XComArg.nonRecord c ∈
          [XComArg.record ⟨0, "k", .jsonUtf8 (.int 1), 0, 7, "t", "d"⟩,
            XComArg.nonRecord "str"]) :=
  ⟨rfl, xcom_delete_validation _ _ rfl⟩
